import Mathlib

/-!
Verification development for the reddit image-collection pipeline
(`data_collection/get_new_data_apache.py` and
`data_collection/get_new_data_local.py`).

The Python code is shallowly embedded: pure string manipulation
(`urllib.parse.urlparse` path extraction, `os.path.splitext`,
`str.endswith`, `str.lower`) is modelled character-exactly on `List Char`;
the GCS bucket / local filesystem is modelled as an association list from
category name to blob content; exceptions are modelled with `Except` or
with explicit abort semantics matching the position of each `try` block in
the source; the reddit feed is a `List Submission` and `requests.get` is an
oracle `String → FetchResult` (an exception, or a response with status code
and body — note `requests.get` does *not* raise on non-2xx statuses).
-/

set_option autoImplicit false

namespace RedditScraper

/-! ## String helpers (models of Python library functions) -/

/-- Characters of `cs` strictly before the first occurrence of `c`. -/
def takeUntil (c : Char) : List Char → List Char
  | [] => []
  | x :: xs => if x = c then [] else x :: takeUntil c xs

/-- Characters after the first occurrence of the substring `"://"`, if any. -/
def afterSchemeMarker : List Char → Option (List Char)
  | ':' :: '/' :: '/' :: rest => some rest
  | _ :: xs => afterSchemeMarker xs
  | [] => none

/-- Model of `urllib.parse.urlparse(url).path` for URLs of the shape
`scheme://netloc/path[?query][#fragment]` (and plain strings without a
scheme marker): the fragment and query are cut off, and for absolute URLs
the scheme and network location up to the first `/` are dropped. -/
def urlPathChars (url : List Char) : List Char :=
  let noQuery := takeUntil '?' (takeUntil '#' url)
  match afterSchemeMarker noQuery with
  | some rest => rest.dropWhile (fun c => ¬ (c = '/'))
  | none => noQuery

def urlPath (url : String) : String :=
  String.mk (urlPathChars url.data)

/-- Portion of `cs` after the last `/` (the whole list if there is none):
model of `os.path.basename` as used inside `os.path.splitext`. -/
def baseNameChars (cs : List Char) : List Char :=
  (takeUntil '/' cs.reverse).reverse

/-- On a reversed basename, split at the first `.` (i.e. the last dot of
the original): returns `(chars after the dot, chars before the dot)`, both
in original order reversed appropriately. -/
def splitDotRev : List Char → Option (List Char × List Char)
  | [] => none
  | '.' :: rest => some ([], rest)
  | c :: rest =>
    match splitDotRev rest with
    | some (p, r) => some (c :: p, r)
    | none => none

/-- Model of the extension component of `os.path.splitext` applied to a
path: the substring from the last dot of the basename to the end, except
that a dot with only dots before it in the basename (e.g. `.bashrc`,
`..png`) yields no extension. -/
def extChars (path : List Char) : List Char :=
  match splitDotRev (baseNameChars path).reverse with
  | some (p, r) => if r.any (fun c => ¬ (c = '.')) then '.' :: p.reverse else []
  | none => []

/-- Model of `str.lower` (ASCII case folding, as exercised here). -/
def lowerStr (s : String) : String :=
  String.mk (s.data.map Char.toLower)

/-- Model of `a.endswith(b)` for strings. -/
def strEndsWith (s suffix : String) : Bool :=
  suffix.data.isSuffixOf s.data

/-! ## Configuration constants (from the CONFIGURATION section) -/

def DALLE_SUBR : String := "dalle2"
def MIDJ_SUBR : String := "midjourney"
def AIART_SUBR : String := "aiArt"

def SUBREDDITS : List String := [DALLE_SUBR, MIDJ_SUBR, AIART_SUBR]

/-- The `FLAIR_DICT` table: relevant flairs per subreddit. -/
def FLAIR_DICT : String → List String
  | "dalle2" => ["DALL·E 2", "DALL·E 3"]
  | "midjourney" => ["AI Showcase - Midjourney"]
  | "aiArt" => ["Image - DALL E 3 :a2:", "Image - Midjourney :a2:"]
  | _ => []

/-- The `AIART_MAP` redirection table for r/aiArt; `none` models a
`KeyError` on lookup of an unmapped flair. -/
def AIART_MAP : String → Option String
  | "Image - DALL E 3 :a2:" => some DALLE_SUBR
  | "Image - Midjourney :a2:" => some MIDJ_SUBR
  | _ => none

/-- The `CONTENT_TYPE_MAP` table. -/
def CONTENT_TYPE_MAP : String → Option String
  | ".jpg" => some "image/jpeg"
  | ".jpeg" => some "image/jpeg"
  | ".png" => some "image/png"
  | _ => none

/-- The tuple `image_extensions = ('.jpg', '.jpeg', '.png')`. -/
def image_extensions : List String := [".jpg", ".jpeg", ".png"]

/-! ## `get_file_extension` -/

/-- Model of `get_file_extension(url)`:
`_, ext = os.path.splitext(urlparse(url).path); return ext.lower() if ext else '.jpg'`. -/
def get_file_extension (url : String) : String :=
  let ext := String.mk (extChars (urlPathChars url.data))
  if ext.data.isEmpty then ".jpg" else lowerStr ext

/-! ## Data model -/

/-- A candidate post yielded by the feed (the fields of a praw submission
that the pipeline reads). `link_flair_text` is `none` when the post has no
flair. -/
structure Submission where
  id : String
  link_flair_text : Option String
  url : String
  over_18 : Bool
  created_utc : Nat
  deriving Repr, DecidableEq

/-- One row of a `metadata.csv` file, columns
`submission_id, filename, url, subreddit, date`. The `date` column is the
item's creation timestamp (the ISO-8601 rendering performed by
`datetime.fromtimestamp(...).isoformat()` is kept abstract as the epoch
value). -/
structure MetaRow where
  submission_id : String
  filename : String
  url : String
  subreddit : String
  date : Nat
  deriving Repr, DecidableEq

/-- An entry of the `new_images` list built by the collector (a `MetaRow`
plus the `target_subr` routing field). -/
structure CollectedImage where
  submission_id : String
  filename : String
  url : String
  subreddit : String
  date : Nat
  target_subr : String
  deriving Repr, DecidableEq

/-- The metadata columns of a collected image. -/
def CollectedImage.toRow (img : CollectedImage) : MetaRow :=
  { submission_id := img.submission_id, filename := img.filename,
    url := img.url, subreddit := img.subreddit, date := img.date }

/-- The `stats` dictionary of a collection pass (the `images` list is kept
separately in `RunState`). -/
structure Stats where
  subreddit : String
  checked : Nat
  passed_flair : Nat
  passed_image : Nat
  passed_nsfw : Nat
  new_images : Nat
  download_errors : Nat
  deriving Repr, DecidableEq

/-- Outcome of `requests.get(url, timeout=10)` together with the rest of
the per-item `try` body: `exn` models an exception raised anywhere in the
block before the upload completes (connection error, timeout, storage write
failure); `resp status body` models a completed HTTP exchange — note that a
non-2xx status is NOT an exception for `requests.get`. -/
inductive FetchResult where
  | exn : FetchResult
  | resp (status : Nat) (body : String) : FetchResult
  deriving Repr, DecidableEq

/-- One binary object written to storage: destination path, content type,
and raw bytes. -/
structure Upload where
  path : String
  contentType : String
  body : String
  deriving Repr, DecidableEq

/-- Mutable state threaded through one collection pass: the `stats`
dictionary, the `new_images` list, and the binary objects written so far. -/
structure RunState where
  stats : Stats
  new_images : List CollectedImage
  uploads : List Upload
  deriving Repr, DecidableEq

/-! ## Storage model -/

/-- Contents of a `metadata.csv` blob: a well-formed table of rows, or
bytes that `pd.read_csv` raises on. -/
inductive BlobContent where
  | rows (rs : List MetaRow) : BlobContent
  | malformed : BlobContent
  deriving Repr, DecidableEq

/-- The GCS bucket restricted to the `{category}/metadata.csv` keys: an
association list from category name to blob content; a key absent from the
list models `blob.exists()` returning false. -/
def Store := List (String × BlobContent)

instance : DecidableEq Store := by
  unfold Store
  infer_instance

def storeLookup (store : Store) (c : String) : Option BlobContent :=
  (store.find? (fun p => p.1 = c)).map (fun p => p.2)

/-- Rows of a category's metadata blob (empty when absent or malformed;
used to state theorems, not by the embedded code). -/
def rowsOf (store : Store) (c : String) : List MetaRow :=
  match storeLookup store c with
  | some (BlobContent.rows rs) => rs
  | _ => []

/-- Model of `blob.upload_from_string` on `{c}/metadata.csv`: overwrite the
existing blob or create it. -/
def storeWrite : Store → String → List MetaRow → Store
  | [], c, rs => [(c, BlobContent.rows rs)]
  | (k, v) :: rest, c, rs =>
    if k = c then (c, BlobContent.rows rs) :: rest
    else (k, v) :: storeWrite rest c rs

/-- Every metadata blob in the store parses. -/
def storeWF : Store → Bool
  | [] => true
  | (_, BlobContent.rows _) :: rest => storeWF rest
  | (_, BlobContent.malformed) :: _ => false

/-! ## Dedup index loaders -/

/-- Body of the `try` block of `get_gcs_submission_ids`: check existence,
download and parse, return the `submission_id` column as a set; a parse
failure raises. The `else` branch logs a warning and returns the empty set
without raising. -/
def readMetadataIds (store : Store) (subr : String) : Except String (List String) :=
  match storeLookup store subr with
  | some (BlobContent.rows rs) => Except.ok (rs.map (fun r => r.submission_id))
  | some BlobContent.malformed => Except.error "could not read metadata.csv"
  | none => Except.ok []

/-- Model of `get_gcs_submission_ids(subr)`: the whole body is wrapped in
`try/except`, so any failure is logged as a warning and yields the empty
set. -/
def get_gcs_submission_ids (store : Store) (subr : String) : List String :=
  match readMetadataIds store subr with
  | Except.ok ids => ids
  | Except.error _ => []

/-- The local data directory: which per-category directories exist, and the
contents of each existing `metadata.csv` file. -/
structure LocalFS where
  dirs : List String
  files : List (String × BlobContent)
  deriving Repr, DecidableEq

/-- Model of `get_existing_image_ids_local(subr)`: if the directory does
not exist, log a warning and return the empty set; otherwise call
`pd.read_csv` with NO exception handler, so a missing or malformed
`metadata.csv` raises out of the function. -/
def get_existing_image_ids_local (fs : LocalFS) (subr : String) :
    Except String (List String) :=
  if fs.dirs.contains subr then
    match (fs.files.find? (fun p => p.1 = subr)).map (fun p => p.2) with
    | some (BlobContent.rows rs) => Except.ok (rs.map (fun r => r.submission_id))
    | some BlobContent.malformed => Except.error "pd.read_csv raised: malformed csv"
    | none => Except.error "pd.read_csv raised: file not found"
  else
    Except.ok []

/-! ## Filter pipeline (the per-submission loop body of
`upload_new_images_to_gcs`) -/

/-- Stage 1 guard: `if not submission.link_flair_text or
submission.link_flair_text not in flair: continue` — `flairOk` is true when
the item is NOT skipped (no flair and the empty flair string are both
falsy). -/
def flairOk (flair : List String) : Option String → Bool
  | none => false
  | some t => if t = "" then false else flair.contains t

/-- Stage 2 guard: `submission.url.endswith(image_extensions)` — a
case-sensitive suffix test of the FULL url string against the tuple
`('.jpg', '.jpeg', '.png')`. -/
def isImageUrl (url : String) : Bool :=
  image_extensions.any (fun e => strEndsWith url e)

/-- Target category: `AIART_MAP[submission.link_flair_text]` when the
source is r/aiArt (a `KeyError` — `none` — for an unmapped flair), the
source itself otherwise. -/
def resolveCategory (subr : String) (tag : String) : Option String :=
  if subr = AIART_SUBR then AIART_MAP tag else some subr

/-- Fresh `stats` dictionary for one pass. -/
def initStats (subr : String) : Stats :=
  { subreddit := subr, checked := 0, passed_flair := 0, passed_image := 0,
    passed_nsfw := 0, new_images := 0, download_errors := 0 }

def initRunState (subr : String) : RunState :=
  { stats := initStats subr, new_images := [], uploads := [] }

/-- Completed download branch of the per-item `try` block: derive the
extension, resolve the target category, build the filename, upload the
response body, and record the new image. A `KeyError` from `AIART_MAP` is
caught by the surrounding `except` and counted as a download error. -/
def downloadBranch (subr : String) (fetchBody : String) (st : RunState)
    (stats : Stats) (s : Submission) : RunState :=
  let original_ext := get_file_extension s.url
  match resolveCategory subr (s.link_flair_text.getD "") with
  | none =>
    { st with stats := { stats with download_errors := stats.download_errors + 1 } }
  | some target_subr =>
    let filename := "img_" ++ target_subr ++ "_" ++ s.id ++ original_ext
    let content_type := (CONTENT_TYPE_MAP original_ext).getD "image/jpeg"
    let upload : Upload :=
      { path := target_subr ++ "/" ++ filename, contentType := content_type,
        body := fetchBody }
    let img : CollectedImage :=
      { submission_id := s.id, filename := filename, url := s.url,
        subreddit := subr, date := s.created_utc, target_subr := target_subr }
    { stats := { stats with new_images := stats.new_images + 1 },
      new_images := st.new_images ++ [img],
      uploads := st.uploads ++ [upload] }

/-- One iteration of `for submission in subreddit.new(limit=1000)`:
unconditional `checked` increment, then the four short-circuiting stages
(flair, image url, nsfw, novelty), then the `try`/`except` download. -/
def processSubmission (subr : String) (flair : List String)
    (existing_ids : List String) (fetch : String → FetchResult)
    (st : RunState) (s : Submission) : RunState :=
  let stats := { st.stats with checked := st.stats.checked + 1 }
  if ¬ flairOk flair s.link_flair_text then { st with stats := stats } else
  let stats := { stats with passed_flair := stats.passed_flair + 1 }
  if ¬ isImageUrl s.url then { st with stats := stats } else
  let stats := { stats with passed_image := stats.passed_image + 1 }
  if s.over_18 then { st with stats := stats } else
  let stats := { stats with passed_nsfw := stats.passed_nsfw + 1 }
  if existing_ids.contains s.id then { st with stats := stats } else
  match fetch s.url with
  | FetchResult.exn =>
    { st with stats := { stats with download_errors := stats.download_errors + 1 } }
  | FetchResult.resp _status body => downloadBranch subr body st stats s

/-- Model of `upload_new_images_to_gcs` for one subreddit: load the dedup
index from the SOURCE subreddit's `metadata.csv`, then fold the loop body
over the feed. -/
def upload_new_images_to_gcs (store : Store) (fetch : String → FetchResult)
    (subr : String) (feed : List Submission) : RunState :=
  let existing_ids := get_gcs_submission_ids store subr
  let flair := FLAIR_DICT subr
  feed.foldl (processSubmission subr flair existing_ids fetch) (initRunState subr)

/-! ## Metadata merge (`update_metadata_csv` and
`update_metadata_csv_local`) -/

/-- Append `v` to the (unique) group keyed `k`, or create that group at the
end: one step of the `images_by_target` grouping loop, which relies on
Python dict insertion order. -/
def addToGroup : List (String × List CollectedImage) → String → CollectedImage →
    List (String × List CollectedImage)
  | [], k, v => [(k, [v])]
  | (k', vs) :: rest, k, v =>
    if k' = k then (k', vs ++ [v]) :: rest
    else (k', vs) :: addToGroup rest k v

/-- The `images_by_target` dictionary in iteration order. -/
def groupByTarget (imgs : List CollectedImage) : List (String × List CollectedImage) :=
  imgs.foldl (fun acc img => addToGroup acc img.target_subr img) []

/-- The `for target_subr, images in images_by_target.items()` loop of
`update_metadata_csv`, including the surrounding single `try`: reading a
malformed existing blob, or a write failure (`failsOn` true for that
category), raises and ABORTS the remaining iterations, leaving the store as
accumulated so far. A successful iteration writes existing rows followed by
the new rows. -/
def mergeLoop (failsOn : String → Bool) :
    Store → List (String × List CollectedImage) → Store
  | store, [] => store
  | store, (target, imgs) :: rest =>
    match storeLookup store target with
    | some BlobContent.malformed => store
    | some (BlobContent.rows existing) =>
      if failsOn target then store
      else mergeLoop failsOn
        (storeWrite store target (existing ++ imgs.map CollectedImage.toRow)) rest
    | none =>
      if failsOn target then store
      else mergeLoop failsOn
        (storeWrite store target (imgs.map CollectedImage.toRow)) rest

/-- Model of `update_metadata_csv`: skip entirely when there are no new
images, otherwise group by target subreddit and run the merge loop under
one exception handler. -/
def update_metadata_csv (failsOn : String → Bool) (store : Store)
    (new_images : List CollectedImage) : Store :=
  if new_images.isEmpty then store
  else mergeLoop failsOn store (groupByTarget new_images)

/-- A failure oracle under which every write succeeds. -/
def noFail : String → Bool := fun _ => false

/-- The local metadata files: association list from category to the rows of
`data_collection/data/{category}/metadata.csv`. -/
def LocalMeta := List (String × List MetaRow)

instance : DecidableEq LocalMeta := by
  unfold LocalMeta
  infer_instance

def localLookup (fs : LocalMeta) (c : String) : Option (List MetaRow) :=
  (fs.find? (fun p => p.1 = c)).map (fun p => p.2)

def localRowsOf (fs : LocalMeta) (c : String) : List MetaRow :=
  (localLookup fs c).getD []

/-- Model of `open(csv_path, 'a')` followed by `writer.writerow` for each
image: rows are appended to the existing file, or the file is created with
a header and the rows. -/
def localAppend : LocalMeta → String → List MetaRow → LocalMeta
  | [], c, rs => [(c, rs)]
  | (k, vs) :: rest, c, rs =>
    if k = c then (k, vs ++ rs) :: rest
    else (k, vs) :: localAppend rest c rs

/-- The per-target loop of `update_metadata_csv_local` under its single
`try`: a write failure aborts the remaining iterations. -/
def mergeLoopLocal (failsOn : String → Bool) :
    LocalMeta → List (String × List CollectedImage) → LocalMeta
  | fs, [] => fs
  | fs, (target, imgs) :: rest =>
    if failsOn target then fs
    else mergeLoopLocal failsOn
      (localAppend fs target (imgs.map CollectedImage.toRow)) rest

/-- Model of `update_metadata_csv_local`. -/
def update_metadata_csv_local (failsOn : String → Bool) (fs : LocalMeta)
    (new_images : List CollectedImage) : LocalMeta :=
  if new_images.isEmpty then fs
  else mergeLoopLocal failsOn fs (groupByTarget new_images)

/-! ## Claim-side definitions (used to state properties, never by the
embedded code) -/

/-- Rows a merge is expected to append for category `c`: the group found in
the `images_by_target` dictionary (empty when absent), as metadata rows. -/
def grpImgs (groups : List (String × List CollectedImage)) (c : String) :
    List CollectedImage :=
  match groups.find? (fun g => g.1 = c) with
  | some g => g.2
  | none => []

def groupRows (groups : List (String × List CollectedImage)) (c : String) :
    List MetaRow :=
  (grpImgs groups c).map CollectedImage.toRow

/-- The funnel chain invariant on the counters. -/
def statsInv (s : Stats) : Prop :=
  s.passed_flair ≤ s.checked ∧ s.passed_image ≤ s.passed_flair ∧
  s.passed_nsfw ≤ s.passed_image ∧
  s.new_images + s.download_errors ≤ s.passed_nsfw

/-- Shape of every record the collector appends to `new_images`. -/
def filenameOk (img : CollectedImage) : Prop :=
  img.filename = "img_" ++ img.target_subr ++ "_" ++ img.submission_id
    ++ get_file_extension img.url

/-- The content-type acceptance predicate as the specification words it: a
case-insensitive suffix match of the supported extensions against the URL
path only. -/
def pathCaseInsensitiveMatch (url : String) : Bool :=
  image_extensions.any (fun e => strEndsWith (lowerStr (urlPath url)) e)

/-! ## Concrete scenario inputs -/

/-- A fetch oracle where every retrieval succeeds with a 200 response. -/
def fetch200 : String → FetchResult := fun _ => FetchResult.resp 200 "imagebytes"

/-- A fetch oracle where every retrieval raises (network error / timeout). -/
def fetchExn : String → FetchResult := fun _ => FetchResult.exn

/-- A fetch oracle where every retrieval completes with a 404 error page —
`requests.get` does not raise for this. -/
def fetch404 : String → FetchResult :=
  fun _ => FetchResult.resp 404 "<html>not found</html>"

/-- A safe, image-linking r/aiArt submission with a DALL-E redirect flair. -/
def aiartProbe : Submission :=
  { id := "s1", link_flair_text := some "Image - DALL E 3 :a2:",
    url := "https://i.test/a.jpg", over_18 := false, created_utc := 100 }

/-- First collection pass over the one-item r/aiArt feed, empty store. -/
def aiartRun1 : RunState := upload_new_images_to_gcs [] fetch200 AIART_SUBR [aiartProbe]

/-- The store after the first pass's metadata merge. -/
def aiartStore2 : Store := update_metadata_csv noFail [] aiartRun1.new_images

/-- Second collection pass over the SAME unchanged feed, with the store
updated by the first pass. -/
def aiartRun2 : RunState :=
  upload_new_images_to_gcs aiartStore2 fetch200 AIART_SUBR [aiartProbe]

/-- A metadata row already present for r/dalle2 (submission `i4`). -/
def row4 : MetaRow :=
  { submission_id := "i4", filename := "img_dalle2_i4.jpg",
    url := "https://i.test/d.jpg", subreddit := "dalle2", date := 4 }

/-- A store whose dalle2 metadata already contains submission `i4`. -/
def store7 : Store := [(DALLE_SUBR, BlobContent.rows [row4])]

/-- Five-item feed for the C7 scenario: two irrelevant flairs, one NSFW,
one already collected (`i4`), one fully novel (`i5`). -/
def feed7 : List Submission :=
  [ { id := "i1", link_flair_text := some "cats", url := "https://i.test/a.jpg",
      over_18 := false, created_utc := 1 },
    { id := "i2", link_flair_text := some "dogs", url := "https://i.test/b.jpg",
      over_18 := false, created_utc := 2 },
    { id := "i3", link_flair_text := some "DALL·E 2", url := "https://i.test/c.jpg",
      over_18 := true, created_utc := 3 },
    { id := "i4", link_flair_text := some "DALL·E 3", url := "https://i.test/d.jpg",
      over_18 := false, created_utc := 4 },
    { id := "i5", link_flair_text := some "DALL·E 2", url := "https://i.test/e.jpg",
      over_18 := false, created_utc := 5 } ]

/-- The collected image produced by the C7 scenario's novel item. -/
def img5 : CollectedImage :=
  { submission_id := "i5", filename := "img_dalle2_i5.jpg",
    url := "https://i.test/e.jpg", subreddit := "dalle2", date := 5,
    target_subr := "dalle2" }

/-- A new image routed to the dalle2 category. -/
def imgA : CollectedImage :=
  { submission_id := "a1", filename := "img_dalle2_a1.jpg",
    url := "https://i.test/a1.jpg", subreddit := "aiArt", date := 11,
    target_subr := "dalle2" }

/-- A new image routed to the midjourney category. -/
def imgB : CollectedImage :=
  { submission_id := "b1", filename := "img_midjourney_b1.jpg",
    url := "https://i.test/b1.jpg", subreddit := "aiArt", date := 12,
    target_subr := "midjourney" }

/-- A write-failure oracle under which exactly the dalle2 blob write
raises. -/
def failsDalle : String → Bool := fun c => c == DALLE_SUBR

/-- A novel, safe, relevantly-flaired dalle2 submission. -/
def novel5 : Submission :=
  { id := "n1", link_flair_text := some "DALL·E 2",
    url := "https://i.test/n1.jpg", over_18 := false, created_utc := 9 }

/-- A relevantly-flaired submission whose URL path has an upper-case
image extension. -/
def pngSub : Submission :=
  { id := "p1", link_flair_text := some "DALL·E 2",
    url := "https://x.test/img.PNG", over_18 := false, created_utc := 1 }

/-- A relevantly-flaired submission whose image URL carries a query
string after the extension. -/
def querySub : Submission :=
  { id := "q1", link_flair_text := some "DALL·E 2",
    url := "https://x.test/a.jpg?width=100", over_18 := false, created_utc := 2 }

/-- A local data directory where the dalle2 directory exists but its
`metadata.csv` file does not. -/
def brokenFS : LocalFS := { dirs := ["dalle2"], files := [] }

/-! ## Helper lemmas: store operations -/

theorem storeLookup_nil (c : String) : storeLookup [] c = none := rfl

theorem storeLookup_cons (k : String) (v : BlobContent) (tl : Store) (c : String) :
    storeLookup ((k, v) :: tl) c = if k = c then some v else storeLookup tl c := by
  by_cases h : k = c <;> simp [storeLookup, List.find?_cons, h]

theorem storeLookup_write (store : Store) (c c' : String) (rs : List MetaRow) :
    storeLookup (storeWrite store c rs) c' =
      if c' = c then some (BlobContent.rows rs) else storeLookup store c' := by
  induction store with
  | nil =>
    by_cases h : c' = c
    · simp [storeWrite, storeLookup_cons, storeLookup_nil, h]
    · simp [storeWrite, storeLookup_cons, storeLookup_nil, h, Ne.symm h]
  | cons hd tl ih =>
    obtain ⟨k, v⟩ := hd
    by_cases hk : k = c
    · subst hk
      by_cases h : c' = k
      · simp [storeWrite, storeLookup_cons, h]
      · simp [storeWrite, storeLookup_cons, h, Ne.symm h]
    · by_cases h : c' = k
      · subst h
        simp [storeWrite, storeLookup_cons, hk, Ne.symm hk]
      · simp [storeWrite, storeLookup_cons, hk, Ne.symm h, h, ih]

theorem rowsOf_write (store : Store) (c c' : String) (rs : List MetaRow) :
    rowsOf (storeWrite store c rs) c' = if c' = c then rs else rowsOf store c' := by
  by_cases h : c' = c <;> simp [rowsOf, storeLookup_write, h]

theorem storeWF_write (store : Store) (c : String) (rs : List MetaRow)
    (h : storeWF store = true) : storeWF (storeWrite store c rs) = true := by
  induction store with
  | nil => simp [storeWrite, storeWF]
  | cons hd tl ih =>
    obtain ⟨k, v⟩ := hd
    cases v with
    | rows rs' =>
      by_cases hk : k = c <;> simp_all [storeWrite, storeWF]
    | malformed =>
      simp [storeWF] at h

theorem storeWF_lookup (store : Store) (c : String) (h : storeWF store = true) :
    storeLookup store c ≠ some BlobContent.malformed := by
  induction store with
  | nil => simp [storeLookup_nil]
  | cons hd tl ih =>
    obtain ⟨k, v⟩ := hd
    cases v with
    | rows rs =>
      simp [storeWF] at h
      by_cases hk : k = c <;> simp [storeLookup_cons, hk, ih h]
    | malformed =>
      simp [storeWF] at h

/-! ## Helper lemmas: grouping accessors -/

theorem grpImgs_nil (c : String) : grpImgs [] c = [] := rfl

theorem grpImgs_cons (k : String) (imgs : List CollectedImage)
    (rest : List (String × List CollectedImage)) (c : String) :
    grpImgs ((k, imgs) :: rest) c = if k = c then imgs else grpImgs rest c := by
  by_cases h : k = c <;> simp [grpImgs, List.find?_cons, h]

theorem grpImgs_eq_nil_of_not_mem (groups : List (String × List CollectedImage))
    (c : String) (h : c ∉ groups.map Prod.fst) : grpImgs groups c = [] := by
  induction groups with
  | nil => rfl
  | cons g rest ih =>
    obtain ⟨k, imgs⟩ := g
    simp at h
    rw [grpImgs_cons]
    have hk : ¬ (k = c) := fun hx => h.1 hx.symm
    rw [if_neg hk]
    exact ih (by simpa using h.2)

theorem groupRows_cons (k : String) (imgs : List CollectedImage)
    (rest : List (String × List CollectedImage)) (c : String) :
    groupRows ((k, imgs) :: rest) c =
      if k = c then imgs.map CollectedImage.toRow else groupRows rest c := by
  unfold groupRows
  rw [grpImgs_cons]
  by_cases h : k = c <;> simp [h]

/-! ## Helper lemmas: the merge loop -/

theorem mergeLoop_lookup_of_not_mem (failsOn : String → Bool)
    (groups : List (String × List CollectedImage)) (store : Store) (c : String)
    (h : c ∉ groups.map Prod.fst) :
    storeLookup (mergeLoop failsOn store groups) c = storeLookup store c := by
  induction groups generalizing store with
  | nil => rfl
  | cons g rest ih =>
    obtain ⟨k, imgs⟩ := g
    simp at h
    have hkc : ¬ (c = k) := fun hx => h.1 hx
    have hrest : c ∉ rest.map Prod.fst := by simpa using h.2
    show storeLookup
      (match storeLookup store k with
        | some BlobContent.malformed => store
        | some (BlobContent.rows existing) =>
          if failsOn k then store
          else mergeLoop failsOn
            (storeWrite store k (existing ++ imgs.map CollectedImage.toRow)) rest
        | none =>
          if failsOn k then store
          else mergeLoop failsOn
            (storeWrite store k (imgs.map CollectedImage.toRow)) rest) c
      = storeLookup store c
    cases hl : storeLookup store k with
    | none =>
      by_cases hf : failsOn k = true
      · simp [hf]
      · simp [hf, ih _ hrest, storeLookup_write, hkc]
    | some b =>
      cases b with
      | malformed => rfl
      | rows existing =>
        by_cases hf : failsOn k = true
        · simp [hf]
        · simp [hf, ih _ hrest, storeLookup_write, hkc]

theorem mergeLoop_rows_noFail (groups : List (String × List CollectedImage))
    (store : Store) (hwf : storeWF store = true)
    (hnd : (groups.map Prod.fst).Nodup) (c : String) :
    rowsOf (mergeLoop noFail store groups) c = rowsOf store c ++ groupRows groups c := by
  induction groups generalizing store with
  | nil => simp [mergeLoop, groupRows, grpImgs_nil]
  | cons g rest ih =>
    obtain ⟨k, imgs⟩ := g
    simp at hnd
    have hndr : (rest.map Prod.fst).Nodup := hnd.2
    have hwrite : ∀ rs, storeWF (storeWrite store k rs) = true :=
      fun rs => storeWF_write store k rs hwf
    have hrows : mergeLoop noFail store ((k, imgs) :: rest)
        = mergeLoop noFail
            (storeWrite store k (rowsOf store k ++ imgs.map CollectedImage.toRow)) rest := by
      cases hl : storeLookup store k with
      | none =>
        simp [mergeLoop, hl, noFail, rowsOf]
      | some b =>
        cases b with
        | malformed => exact absurd hl (storeWF_lookup store k hwf)
        | rows existing =>
          simp [mergeLoop, hl, noFail, rowsOf]
    rw [hrows]
    rw [ih (storeWrite store k (rowsOf store k ++ imgs.map CollectedImage.toRow))
      (hwrite _) hndr, rowsOf_write, groupRows_cons]
    by_cases hck : c = k
    · subst hck
      have hnr : c ∉ rest.map Prod.fst := by
        intro hmem
        simp at hmem
        obtain ⟨b, hb⟩ := hmem
        exact hnd.1 b hb
      rw [if_pos rfl, if_pos rfl]
      rw [groupRows, grpImgs_eq_nil_of_not_mem rest c hnr]
      simp
    · have hkc : ¬ (k = c) := fun hx => hck hx.symm
      rw [if_neg hck, if_neg hkc]

/-- With a well-formed store, the merge loop behaves as the failure-free
loop run on the longest failure-free leading segment of the groups: the
first raising iteration discards it and everything after it. -/
theorem mergeLoop_eq_takeWhile (failsOn : String → Bool)
    (groups : List (String × List CollectedImage)) (store : Store)
    (hwf : storeWF store = true) :
    mergeLoop failsOn store groups
      = mergeLoop noFail store (groups.takeWhile (fun g => !(failsOn g.1))) := by
  induction groups generalizing store with
  | nil => rfl
  | cons g rest ih =>
    obtain ⟨k, imgs⟩ := g
    by_cases hf : failsOn k = true
    · cases hl : storeLookup store k with
      | none => simp [mergeLoop, hl, hf, List.takeWhile]
      | some b =>
        cases b with
        | malformed => exact absurd hl (storeWF_lookup store k hwf)
        | rows existing => simp [mergeLoop, hl, hf, List.takeWhile]
    · have hf' : failsOn k = false := by
        cases hx : failsOn k with
        | true => exact absurd hx hf
        | false => rfl
      cases hl : storeLookup store k with
      | none =>
        simp only [mergeLoop, hl, hf', if_neg (by simp [hf'] : ¬ failsOn k = true),
          List.takeWhile]
        simp [hf']
        exact ih _ (storeWF_write store k _ hwf)
      | some b =>
        cases b with
        | malformed => exact absurd hl (storeWF_lookup store k hwf)
        | rows existing =>
          simp only [mergeLoop, hl, hf', List.takeWhile]
          simp [hf']
          exact ih _ (storeWF_write store k _ hwf)

/-- A category's group in a leading segment of the dictionary is its full
group or is absent. -/
theorem grpImgs_takeWhile (q : String × List CollectedImage → Bool)
    (groups : List (String × List CollectedImage)) (c : String) :
    grpImgs (groups.takeWhile q) c = grpImgs groups c ∨
      grpImgs (groups.takeWhile q) c = [] := by
  induction groups with
  | nil => left; rfl
  | cons g rest ih =>
    obtain ⟨k, imgs⟩ := g
    by_cases hq : q (k, imgs) = true
    · rw [List.takeWhile_cons, if_pos hq, grpImgs_cons, grpImgs_cons]
      by_cases hk : k = c
      · left; rw [if_pos hk, if_pos hk]
      · rw [if_neg hk, if_neg hk]; exact ih
    · rw [List.takeWhile_cons, if_neg hq]
      right; rfl

/-! ## Helper lemmas: the `images_by_target` grouping -/

theorem grpImgs_addToGroup (acc : List (String × List CollectedImage))
    (k : String) (v : CollectedImage) (c : String) :
    grpImgs (addToGroup acc k v) c =
      if k = c then grpImgs acc c ++ [v] else grpImgs acc c := by
  induction acc with
  | nil =>
    by_cases h : k = c <;> simp [addToGroup, grpImgs_cons, grpImgs_nil, h]
  | cons g rest ih =>
    obtain ⟨k', vs⟩ := g
    by_cases hk : k' = k
    · subst hk
      by_cases h : k' = c <;> simp [addToGroup, grpImgs_cons, h]
    · by_cases h : k' = c
      · subst h
        have : ¬ (k = k') := fun hx => hk hx.symm
        simp [addToGroup, hk, grpImgs_cons, this]
      · simp [addToGroup, hk, grpImgs_cons, h, ih]

theorem keys_addToGroup (acc : List (String × List CollectedImage))
    (k : String) (v : CollectedImage) :
    (addToGroup acc k v).map Prod.fst =
      if k ∈ acc.map Prod.fst then acc.map Prod.fst
      else acc.map Prod.fst ++ [k] := by
  induction acc with
  | nil => simp [addToGroup]
  | cons g rest ih =>
    obtain ⟨k', vs⟩ := g
    by_cases hk : k' = k
    · subst hk
      simp [addToGroup]
    · have hne : ¬ (k = k') := fun hx => hk hx.symm
      by_cases hmem : k ∈ rest.map Prod.fst
      · simp [addToGroup, hk, ih, hmem, hne]
      · simp [addToGroup, hk, ih, hmem, hne]

theorem nodup_keys_addToGroup (acc : List (String × List CollectedImage))
    (k : String) (v : CollectedImage) (h : (acc.map Prod.fst).Nodup) :
    ((addToGroup acc k v).map Prod.fst).Nodup := by
  rw [keys_addToGroup]
  by_cases hmem : k ∈ acc.map Prod.fst
  · rw [if_pos hmem]; exact h
  · rw [if_neg hmem]
    apply List.Nodup.append h (List.nodup_singleton k)
    intro a ha hak
    simp at hak
    subst hak
    exact hmem ha

theorem nonempty_addToGroup (acc : List (String × List CollectedImage))
    (k : String) (v : CollectedImage)
    (h : ∀ g ∈ acc, g.2 ≠ []) :
    ∀ g ∈ addToGroup acc k v, g.2 ≠ [] := by
  induction acc with
  | nil =>
    intro g hg
    simp [addToGroup] at hg
    subst hg
    simp
  | cons g0 rest ih =>
    obtain ⟨k', vs⟩ := g0
    intro g hg
    by_cases hk : k' = k
    · subst hk
      simp [addToGroup] at hg
      rcases hg with hg | hg
      · subst hg; simp
      · exact h g (by simp [hg])
    · simp [addToGroup, hk] at hg
      rcases hg with hg | hg
      · subst hg; exact h (k', vs) (by simp)
      · exact ih (fun g' hg' => h g' (by simp [hg'])) g hg

theorem grpImgs_foldl (imgs : List CollectedImage)
    (acc : List (String × List CollectedImage)) (c : String) :
    grpImgs (imgs.foldl (fun a i => addToGroup a i.target_subr i) acc) c =
      grpImgs acc c ++ imgs.filter (fun i => i.target_subr = c) := by
  induction imgs generalizing acc with
  | nil => simp
  | cons i rest ih =>
    rw [List.foldl_cons, ih, grpImgs_addToGroup]
    by_cases h : i.target_subr = c
    · rw [if_pos h, List.filter_cons, if_pos (by simp [h])]
      simp
    · rw [if_neg h, List.filter_cons, if_neg (by simp [h])]

theorem grpImgs_groupByTarget (imgs : List CollectedImage) (c : String) :
    grpImgs (groupByTarget imgs) c = imgs.filter (fun i => i.target_subr = c) := by
  unfold groupByTarget
  rw [grpImgs_foldl]
  rfl

theorem nodup_keys_foldl (imgs : List CollectedImage)
    (acc : List (String × List CollectedImage))
    (h : (acc.map Prod.fst).Nodup) :
    (((imgs.foldl (fun a i => addToGroup a i.target_subr i) acc)).map Prod.fst).Nodup := by
  induction imgs generalizing acc with
  | nil => exact h
  | cons i rest ih =>
    rw [List.foldl_cons]
    exact ih _ (nodup_keys_addToGroup acc i.target_subr i h)

theorem nodup_keys_groupByTarget (imgs : List CollectedImage) :
    ((groupByTarget imgs).map Prod.fst).Nodup := by
  unfold groupByTarget
  exact nodup_keys_foldl imgs [] (by simp)

theorem nonempty_foldl (imgs : List CollectedImage)
    (acc : List (String × List CollectedImage))
    (h : ∀ g ∈ acc, g.2 ≠ []) :
    ∀ g ∈ imgs.foldl (fun a i => addToGroup a i.target_subr i) acc, g.2 ≠ [] := by
  induction imgs generalizing acc with
  | nil => exact h
  | cons i rest ih =>
    rw [List.foldl_cons]
    exact ih _ (nonempty_addToGroup acc i.target_subr i h)

theorem nonempty_groupByTarget (imgs : List CollectedImage) :
    ∀ g ∈ groupByTarget imgs, g.2 ≠ [] := by
  unfold groupByTarget
  exact nonempty_foldl imgs [] (by simp)

theorem grpImgs_ne_nil_of_mem (groups : List (String × List CollectedImage))
    (c : String) (hne : ∀ g ∈ groups, g.2 ≠ [])
    (hmem : c ∈ groups.map Prod.fst) : grpImgs groups c ≠ [] := by
  induction groups with
  | nil => simp at hmem
  | cons g rest ih =>
    obtain ⟨k, vs⟩ := g
    rw [grpImgs_cons]
    by_cases hk : k = c
    · rw [if_pos hk]; exact hne (k, vs) (by simp)
    · rw [if_neg hk]
      simp at hmem
      rcases hmem with hmem | hmem
      · exact absurd hmem.symm hk
      · exact ih (fun g' hg' => hne g' (by simp [hg'])) (by simpa using hmem)

/-- A category appears among the grouping keys only when some new image
targets it. -/
theorem not_mem_keys_of_filter_nil (imgs : List CollectedImage) (c : String)
    (h : imgs.filter (fun i => i.target_subr = c) = []) :
    c ∉ (groupByTarget imgs).map Prod.fst := by
  intro hmem
  have hg := grpImgs_groupByTarget imgs c
  rw [h] at hg
  exact grpImgs_ne_nil_of_mem (groupByTarget imgs) c
    (nonempty_groupByTarget imgs) hmem hg

/-! ## Helper lemmas: `update_metadata_csv` -/

theorem update_rows_noFail (store : Store) (imgs : List CollectedImage)
    (hwf : storeWF store = true) (c : String) :
    rowsOf (update_metadata_csv noFail store imgs) c =
      rowsOf store c ++ (imgs.filter (fun i => i.target_subr = c)).map CollectedImage.toRow := by
  unfold update_metadata_csv
  by_cases he : imgs.isEmpty
  · have : imgs = [] := by cases imgs <;> simp_all
    subst this
    simp
  · rw [if_neg he,
      mergeLoop_rows_noFail (groupByTarget imgs) store hwf (nodup_keys_groupByTarget imgs) c]
    unfold groupRows
    rw [grpImgs_groupByTarget]

theorem update_lookup_of_filter_nil (failsOn : String → Bool) (store : Store)
    (imgs : List CollectedImage) (c : String)
    (h : imgs.filter (fun i => i.target_subr = c) = []) :
    storeLookup (update_metadata_csv failsOn store imgs) c = storeLookup store c := by
  unfold update_metadata_csv
  by_cases he : imgs.isEmpty
  · rw [if_pos he]
  · rw [if_neg he]
    exact mergeLoop_lookup_of_not_mem failsOn (groupByTarget imgs) store c
      (not_mem_keys_of_filter_nil imgs c h)

theorem update_empty (failsOn : String → Bool) (store : Store) :
    update_metadata_csv failsOn store [] = store := rfl

/-! ## Helper lemmas: the local merge -/

theorem localLookup_cons (k : String) (vs : List MetaRow)
    (tl : List (String × List MetaRow)) (c : String) :
    localLookup ((k, vs) :: tl) c = if k = c then some vs else localLookup tl c := by
  by_cases h : k = c <;> simp [localLookup, List.find?_cons, h]

theorem localRowsOf_cons (k : String) (vs : List MetaRow)
    (tl : List (String × List MetaRow)) (c : String) :
    localRowsOf ((k, vs) :: tl) c = if k = c then vs else localRowsOf tl c := by
  rw [localRowsOf, localLookup_cons]
  by_cases h : k = c <;> simp [h, localRowsOf]

theorem localLookup_append (fs : LocalMeta) (c c' : String) (rs : List MetaRow) :
    localLookup (localAppend fs c rs) c' =
      if c' = c then some (localRowsOf fs c ++ rs) else localLookup fs c' := by
  induction fs with
  | nil =>
    by_cases h : c' = c
    · simp [localAppend, localLookup_cons, h, localRowsOf, localLookup]
    · simp [localAppend, localLookup_cons, h, Ne.symm h, localLookup]
  | cons hd tl ih =>
    obtain ⟨k, vs⟩ := hd
    by_cases hk : k = c
    · subst hk
      by_cases h : c' = k
      · simp [localAppend, localLookup_cons, localRowsOf_cons, h]
      · simp [localAppend, localLookup_cons, localRowsOf_cons, h, Ne.symm h]
    · simp only [localAppend, if_neg hk]
      rw [localLookup_cons]
      by_cases h : c' = k
      · have hcc : ¬ (c' = c) := fun hx => hk (h.symm.trans hx)
        rw [if_pos h.symm, if_neg hcc, localLookup_cons, if_pos h.symm]
      · have hkc' : ¬ (k = c') := fun hx => h hx.symm
        rw [if_neg hkc', ih, localRowsOf_cons, if_neg hk, localLookup_cons,
          if_neg hkc']

theorem localRowsOf_append (fs : LocalMeta) (c c' : String) (rs : List MetaRow) :
    localRowsOf (localAppend fs c rs) c' =
      if c' = c then localRowsOf fs c ++ rs else localRowsOf fs c' := by
  rw [localRowsOf, localLookup_append]
  by_cases h : c' = c <;> simp [h, localRowsOf]

theorem localLookup_mergeLoop_of_not_mem (failsOn : String → Bool)
    (groups : List (String × List CollectedImage)) (fs : LocalMeta) (c : String)
    (h : c ∉ groups.map Prod.fst) :
    localLookup (mergeLoopLocal failsOn fs groups) c = localLookup fs c := by
  induction groups generalizing fs with
  | nil => rfl
  | cons g rest ih =>
    obtain ⟨k, imgs⟩ := g
    simp at h
    have hkc : ¬ (c = k) := h.1
    have hrest : c ∉ rest.map Prod.fst := by simpa using h.2
    by_cases hf : failsOn k = true
    · simp [mergeLoopLocal, hf]
    · simp only [mergeLoopLocal, if_neg hf]
      rw [ih _ hrest, localLookup_append, if_neg hkc]

theorem mergeLoopLocal_rows_noFail (groups : List (String × List CollectedImage))
    (fs : LocalMeta) (hnd : (groups.map Prod.fst).Nodup) (c : String) :
    localRowsOf (mergeLoopLocal noFail fs groups) c =
      localRowsOf fs c ++ groupRows groups c := by
  induction groups generalizing fs with
  | nil => simp [mergeLoopLocal, groupRows, grpImgs_nil]
  | cons g rest ih =>
    obtain ⟨k, imgs⟩ := g
    simp at hnd
    have hndr : (rest.map Prod.fst).Nodup := hnd.2
    show localRowsOf (mergeLoopLocal noFail
      (localAppend fs k (imgs.map CollectedImage.toRow)) rest) c = _
    rw [ih _ hndr, localRowsOf_append, groupRows_cons]
    by_cases hck : c = k
    · subst hck
      have hnr : c ∉ rest.map Prod.fst := by
        intro hmem
        simp at hmem
        obtain ⟨b, hb⟩ := hmem
        exact hnd.1 b hb
      rw [if_pos rfl, if_pos rfl]
      rw [groupRows, grpImgs_eq_nil_of_not_mem rest c hnr]
      simp
    · have hkc : ¬ (k = c) := fun hx => hck hx.symm
      rw [if_neg hck, if_neg hkc]

theorem mergeLoopLocal_eq_takeWhile (failsOn : String → Bool)
    (groups : List (String × List CollectedImage)) (fs : LocalMeta) :
    mergeLoopLocal failsOn fs groups
      = mergeLoopLocal noFail fs (groups.takeWhile (fun g => !(failsOn g.1))) := by
  induction groups generalizing fs with
  | nil => rfl
  | cons g rest ih =>
    obtain ⟨k, imgs⟩ := g
    by_cases hf : failsOn k = true
    · simp [mergeLoopLocal, hf, List.takeWhile]
    · have hf' : failsOn k = false := by
        cases hx : failsOn k with
        | true => exact absurd hx hf
        | false => rfl
      simp only [mergeLoopLocal, if_neg hf, List.takeWhile]
      simp [hf']
      exact ih _

theorem update_local_rows_noFail (fs : LocalMeta) (imgs : List CollectedImage)
    (c : String) :
    localRowsOf (update_metadata_csv_local noFail fs imgs) c =
      localRowsOf fs c ++ (imgs.filter (fun i => i.target_subr = c)).map CollectedImage.toRow := by
  unfold update_metadata_csv_local
  by_cases he : imgs.isEmpty
  · have : imgs = [] := by cases imgs <;> simp_all
    subst this
    simp
  · rw [if_neg he,
      mergeLoopLocal_rows_noFail (groupByTarget imgs) fs (nodup_keys_groupByTarget imgs) c]
    unfold groupRows
    rw [grpImgs_groupByTarget]

theorem update_local_lookup_of_filter_nil (failsOn : String → Bool) (fs : LocalMeta)
    (imgs : List CollectedImage) (c : String)
    (h : imgs.filter (fun i => i.target_subr = c) = []) :
    localLookup (update_metadata_csv_local failsOn fs imgs) c = localLookup fs c := by
  unfold update_metadata_csv_local
  by_cases he : imgs.isEmpty
  · rw [if_pos he]
  · rw [if_neg he]
    exact localLookup_mergeLoop_of_not_mem failsOn (groupByTarget imgs) fs c
      (not_mem_keys_of_filter_nil imgs c h)

theorem update_local_empty (failsOn : String → Bool) (fs : LocalMeta) :
    update_metadata_csv_local failsOn fs [] = fs := rfl

/-! ## Helper lemmas: per-item funnel counter behaviour -/

theorem checked_delta (subr : String) (flair : List String)
    (existing_ids : List String) (fetch : String → FetchResult)
    (st : RunState) (s : Submission) :
    (processSubmission subr flair existing_ids fetch st s).stats.checked
      = st.stats.checked + 1 := by
  unfold processSubmission downloadBranch
  repeat' split
  all_goals rfl

theorem passed_flair_delta (subr : String) (flair : List String)
    (existing_ids : List String) (fetch : String → FetchResult)
    (st : RunState) (s : Submission) :
    (processSubmission subr flair existing_ids fetch st s).stats.passed_flair
      = st.stats.passed_flair +
        (if flairOk flair s.link_flair_text then 1 else 0) := by
  unfold processSubmission downloadBranch
  by_cases h : flairOk flair s.link_flair_text = true
  · simp only [h, if_pos, if_true]
    repeat' split
    all_goals simp_all
  · simp [h]

theorem passed_image_delta (subr : String) (flair : List String)
    (existing_ids : List String) (fetch : String → FetchResult)
    (st : RunState) (s : Submission) :
    (processSubmission subr flair existing_ids fetch st s).stats.passed_image
      = st.stats.passed_image +
        (if flairOk flair s.link_flair_text && isImageUrl s.url then 1 else 0) := by
  unfold processSubmission downloadBranch
  by_cases h : flairOk flair s.link_flair_text = true
  · by_cases hi : isImageUrl s.url = true
    · simp only [h, hi]
      repeat' split
      all_goals simp_all
    · simp [h, hi]
  · simp [h]

theorem passed_nsfw_delta (subr : String) (flair : List String)
    (existing_ids : List String) (fetch : String → FetchResult)
    (st : RunState) (s : Submission) :
    (processSubmission subr flair existing_ids fetch st s).stats.passed_nsfw
      = st.stats.passed_nsfw +
        (if flairOk flair s.link_flair_text && isImageUrl s.url && !s.over_18
         then 1 else 0) := by
  unfold processSubmission downloadBranch
  by_cases h : flairOk flair s.link_flair_text = true
  · by_cases hi : isImageUrl s.url = true
    · by_cases hn : s.over_18 = true
      · simp [h, hi, hn]
      · simp only [h, hi]
        repeat' split
        all_goals simp_all [h, hi, hn]
    · simp [h, hi]
  · simp [h]

theorem newerr_delta_le (subr : String) (flair : List String)
    (existing_ids : List String) (fetch : String → FetchResult)
    (st : RunState) (s : Submission) :
    (processSubmission subr flair existing_ids fetch st s).stats.new_images
      + (processSubmission subr flair existing_ids fetch st s).stats.download_errors
      ≤ st.stats.new_images + st.stats.download_errors + 1 := by
  unfold processSubmission downloadBranch
  repeat' split
  all_goals simp
  all_goals omega

theorem dup_skip_newerr (subr : String) (flair : List String)
    (existing_ids : List String) (fetch : String → FetchResult)
    (st : RunState) (s : Submission)
    (h : existing_ids.contains s.id = true) :
    (processSubmission subr flair existing_ids fetch st s).stats.new_images
        = st.stats.new_images
      ∧ (processSubmission subr flair existing_ids fetch st s).stats.download_errors
        = st.stats.download_errors
      ∧ (processSubmission subr flair existing_ids fetch st s).new_images
        = st.new_images
      ∧ (processSubmission subr flair existing_ids fetch st s).uploads
        = st.uploads := by
  unfold processSubmission downloadBranch
  repeat' split
  all_goals simp_all

theorem statsInv_step (subr : String) (flair : List String)
    (existing_ids : List String) (fetch : String → FetchResult)
    (st : RunState) (s : Submission) (h : statsInv st.stats) :
    statsInv (processSubmission subr flair existing_ids fetch st s).stats := by
  unfold statsInv at h ⊢
  unfold processSubmission downloadBranch
  repeat' split
  all_goals simp
  all_goals omega

theorem statsInv_foldl (subr : String) (flair : List String)
    (existing_ids : List String) (fetch : String → FetchResult)
    (feed : List Submission) (st : RunState) (h : statsInv st.stats) :
    statsInv ((feed.foldl (processSubmission subr flair existing_ids fetch) st)).stats := by
  induction feed generalizing st with
  | nil => exact h
  | cons s rest ih =>
    rw [List.foldl_cons]
    exact ih _ (statsInv_step subr flair existing_ids fetch st s h)

theorem statsInv_run (store : Store) (fetch : String → FetchResult)
    (subr : String) (feed : List Submission) :
    statsInv (upload_new_images_to_gcs store fetch subr feed).stats := by
  unfold upload_new_images_to_gcs
  exact statsInv_foldl subr (FLAIR_DICT subr) (get_gcs_submission_ids store subr)
    fetch feed (initRunState subr) (by simp [statsInv, initRunState, initStats])

theorem filenameOk_step (subr : String) (flair : List String)
    (existing_ids : List String) (fetch : String → FetchResult)
    (st : RunState) (s : Submission)
    (h : ∀ img ∈ st.new_images, filenameOk img) :
    ∀ img ∈ (processSubmission subr flair existing_ids fetch st s).new_images,
      filenameOk img := by
  unfold processSubmission downloadBranch
  repeat' split
  all_goals intro img hmem
  all_goals simp at hmem
  all_goals try exact h img hmem
  rcases hmem with hmem | hmem
  · exact h img hmem
  · subst hmem
    rfl

theorem filenameOk_foldl (subr : String) (flair : List String)
    (existing_ids : List String) (fetch : String → FetchResult)
    (feed : List Submission) (st : RunState)
    (h : ∀ img ∈ st.new_images, filenameOk img) :
    ∀ img ∈ (feed.foldl (processSubmission subr flair existing_ids fetch) st).new_images,
      filenameOk img := by
  induction feed generalizing st with
  | nil => exact h
  | cons s rest ih =>
    rw [List.foldl_cons]
    exact ih _ (filenameOk_step subr flair existing_ids fetch st s h)

/-- Behaviour of the loop body on an item that passes all four filter
stages and whose retrieval raises: only `checked`, the three stage
counters, and `download_errors` change; nothing is recorded or written. -/
theorem exn_step (subr : String) (flair : List String) (ids : List String)
    (fetch : String → FetchResult) (st : RunState) (s : Submission)
    (hf : flairOk flair s.link_flair_text = true)
    (hi : isImageUrl s.url = true)
    (hn : s.over_18 = false)
    (hd : ids.contains s.id = false)
    (hx : fetch s.url = FetchResult.exn) :
    processSubmission subr flair ids fetch st s =
      { st with stats :=
        { st.stats with
            checked := st.stats.checked + 1
            passed_flair := st.stats.passed_flair + 1
            passed_image := st.stats.passed_image + 1
            passed_nsfw := st.stats.passed_nsfw + 1
            download_errors := st.stats.download_errors + 1 } } := by
  unfold processSubmission
  simp [hf, hi, hn, hd, hx]
  simpa using hd

/-- Behaviour of the loop body on an item that passes all four filter
stages and whose retrieval completes with ANY status code (2xx or not):
the body is uploaded, the item is recorded, and `new_images` counts it. -/
theorem resp_step (subr : String) (flair : List String) (ids : List String)
    (fetch : String → FetchResult) (st : RunState) (s : Submission)
    (code : Nat) (body : String) (target : String)
    (hf : flairOk flair s.link_flair_text = true)
    (hi : isImageUrl s.url = true)
    (hn : s.over_18 = false)
    (hd : ids.contains s.id = false)
    (hx : fetch s.url = FetchResult.resp code body)
    (ht : resolveCategory subr (s.link_flair_text.getD "") = some target) :
    processSubmission subr flair ids fetch st s =
      { stats :=
          { st.stats with
              checked := st.stats.checked + 1
              passed_flair := st.stats.passed_flair + 1
              passed_image := st.stats.passed_image + 1
              passed_nsfw := st.stats.passed_nsfw + 1
              new_images := st.stats.new_images + 1 }
        new_images := st.new_images ++
          [{ submission_id := s.id
             filename := "img_" ++ target ++ "_" ++ s.id ++ get_file_extension s.url
             url := s.url
             subreddit := subr
             date := s.created_utc
             target_subr := target }]
        uploads := st.uploads ++
          [{ path := target ++ "/" ++
               ("img_" ++ target ++ "_" ++ s.id ++ get_file_extension s.url)
             contentType := (CONTENT_TYPE_MAP (get_file_extension s.url)).getD "image/jpeg"
             body := body }] } := by
  unfold processSubmission downloadBranch
  simp [hf, hi, hn, hd, hx, ht]
  simpa using hd

/-- The stage-2 test of the source is exactly a case-sensitive suffix match
of the three extension literals against the whole URL string. -/
theorem isImageUrl_iff (url : String) :
    isImageUrl url = true ↔
      (".jpg".data <:+ url.data ∨ ".jpeg".data <:+ url.data ∨
       ".png".data <:+ url.data) := by
  unfold isImageUrl image_extensions strEndsWith
  simp [List.isSuffixOf_iff_suffix]

/-! ## Claim theorems -/

/-- C1: the spec claims the dedup index is loaded for the item's RESOLVED
category and that a second pass over an unchanged feed collects zero new
items, including for the redirecting source. The code loads the index from
the SOURCE subreddit's store, while rows for r/aiArt items are merged under
the resolved categories, so aiArt's own store is never written: after a
first run and its merge, the resolved category's store does contain the
item (third conjunct), the index loaded for a second aiArt pass is still
empty (second conjunct), and the second pass re-collects the same item
(first and fourth conjuncts). -/
theorem C1_rerun_recollects_for_redirecting_source :
    aiartRun2.stats.new_images = 1
    ∧ get_gcs_submission_ids aiartStore2 AIART_SUBR = []
    ∧ (rowsOf aiartStore2 DALLE_SUBR).map (fun r => r.submission_id) = ["s1"]
    ∧ aiartRun2.new_images = aiartRun1.new_images := by
  refine ⟨by decide, by decide, by decide, by decide⟩

/-- C2 counterexample: the local dedup-index loader has no exception
handler around the csv read, so when the category directory exists but the
metadata store is missing it raises instead of returning the empty set —
refuting "never raises or aborts the run". -/
theorem C2_local_loader_raises :
    ¬ ∃ ids : List String,
      get_existing_image_ids_local brokenFS DALLE_SUBR = Except.ok ids := by
  rintro ⟨ids, h⟩
  rw [show get_existing_image_ids_local brokenFS DALLE_SUBR
      = Except.error "pd.read_csv raised: file not found" from rfl] at h
  exact Except.noConfusion h

/-- C2 (amended): the GCS loader returns the empty set when the store is
absent, and when it is unreadable or malformed, and never raises (any
internal failure is caught and yields the empty set); the local loader
returns the empty set only when the category directory does not exist —
when the directory exists but the store is missing or malformed, the read
error propagates. -/
theorem C2_loader_error_behaviour :
    (∀ (store : Store) (subr : String), storeLookup store subr = none →
      get_gcs_submission_ids store subr = [])
    ∧ (∀ (store : Store) (subr : String),
        storeLookup store subr = some BlobContent.malformed →
        get_gcs_submission_ids store subr = [])
    ∧ (∀ (store : Store) (subr : String) (e : String),
        readMetadataIds store subr = Except.error e →
        get_gcs_submission_ids store subr = [])
    ∧ (∀ (fs : LocalFS) (subr : String), fs.dirs.contains subr = false →
        get_existing_image_ids_local fs subr = Except.ok [])
    ∧ (∀ (fs : LocalFS) (subr : String), fs.dirs.contains subr = true →
        (fs.files.find? (fun p => p.1 = subr)).map (fun p => p.2) = none →
        ∃ e, get_existing_image_ids_local fs subr = Except.error e)
    ∧ (∀ (fs : LocalFS) (subr : String), fs.dirs.contains subr = true →
        (fs.files.find? (fun p => p.1 = subr)).map (fun p => p.2)
            = some BlobContent.malformed →
        ∃ e, get_existing_image_ids_local fs subr = Except.error e) := by
  refine ⟨?_, ?_, ?_, ?_, ?_, ?_⟩
  · intro store subr h
    unfold get_gcs_submission_ids readMetadataIds
    rw [h]
  · intro store subr h
    unfold get_gcs_submission_ids readMetadataIds
    rw [h]
  · intro store subr e h
    unfold get_gcs_submission_ids
    rw [h]
  · intro fs subr h
    have hm : subr ∉ fs.dirs := by simpa using h
    unfold get_existing_image_ids_local
    simp [hm]
  · intro fs subr h1 h2
    have hm : subr ∈ fs.dirs := by simpa using h1
    refine ⟨"pd.read_csv raised: file not found", ?_⟩
    unfold get_existing_image_ids_local
    simp [hm, h2]
  · intro fs subr h1 h2
    have hm : subr ∈ fs.dirs := by simpa using h1
    refine ⟨"pd.read_csv raised: malformed csv", ?_⟩
    unfold get_existing_image_ids_local
    simp [hm, h2]

/-- C2 witness: the GCS loader on an empty bucket. -/
theorem C2_loader_error_behaviour_witness :
    get_gcs_submission_ids [] DALLE_SUBR = [] :=
  C2_loader_error_behaviour.1 [] DALLE_SUBR rfl

/-- C3 counterexample: two relevantly-flaired items whose URLs satisfy the
claimed predicate (case-insensitive suffix match on the URL path only) but
which the stage rejects, because the code compares case-sensitively
against the full URL string: an upper-case `.PNG` path and a `.jpg` URL
with a trailing query string. -/
theorem C3_stage_not_path_case_insensitive :
    flairOk (FLAIR_DICT DALLE_SUBR) pngSub.link_flair_text = true
    ∧ pathCaseInsensitiveMatch pngSub.url = true
    ∧ ¬ ((processSubmission DALLE_SUBR (FLAIR_DICT DALLE_SUBR) [] fetch200
          (initRunState DALLE_SUBR) pngSub).stats.passed_image
        = (initRunState DALLE_SUBR).stats.passed_image + 1)
    ∧ flairOk (FLAIR_DICT DALLE_SUBR) querySub.link_flair_text = true
    ∧ pathCaseInsensitiveMatch querySub.url = true
    ∧ ¬ ((processSubmission DALLE_SUBR (FLAIR_DICT DALLE_SUBR) [] fetch200
          (initRunState DALLE_SUBR) querySub).stats.passed_image
        = (initRunState DALLE_SUBR).stats.passed_image + 1) := by
  refine ⟨by decide, by decide, by decide, by decide, by decide, by decide⟩

/-- C3 (amended): the content-type stage accepts a candidate iff the FULL
URL string ends in `.jpg`, `.jpeg` or `.png` under CASE-SENSITIVE
comparison — so a query string or fragment after the extension causes
rejection and an upper-case extension such as `.PNG` is rejected. -/
theorem C3_image_filter_full_url_case_sensitive :
    (∀ url : String, isImageUrl url = true ↔
      (".jpg".data <:+ url.data ∨ ".jpeg".data <:+ url.data ∨
       ".png".data <:+ url.data))
    ∧ (∀ (subr : String) (flair ids : List String)
        (fetch : String → FetchResult) (st : RunState) (s : Submission),
        flairOk flair s.link_flair_text = true →
        (processSubmission subr flair ids fetch st s).stats.passed_image
          = st.stats.passed_image + (if isImageUrl s.url then 1 else 0)) := by
  constructor
  · exact isImageUrl_iff
  · intro subr flair ids fetch st s hf
    rw [passed_image_delta]
    simp [hf]

/-- C3 witness: the stage decision at a concrete accepted item. -/
theorem C3_image_filter_witness :
    (processSubmission DALLE_SUBR (FLAIR_DICT DALLE_SUBR) [] fetch200
      (initRunState DALLE_SUBR) novel5).stats.passed_image
    = (initRunState DALLE_SUBR).stats.passed_image
      + (if isImageUrl novel5.url then 1 else 0) :=
  C3_image_filter_full_url_case_sensitive.2 DALLE_SUBR (FLAIR_DICT DALLE_SUBR)
    [] fetch200 (initRunState DALLE_SUBR) novel5 (by decide)

/-- C4 counterexample: one merge task covering two categories, where the
dalle2 write raises: the claim says the midjourney merge is unaffected, but
the single surrounding exception handler aborts the loop, so midjourney's
rows differ from what merging its items alone produces. -/
theorem C4_failure_not_isolated :
    ¬ (rowsOf (update_metadata_csv failsDalle [] [imgA, imgB]) MIDJ_SUBR
       = rowsOf (update_metadata_csv noFail [] [imgB]) MIDJ_SUBR) := by
  decide

/-- C4 (amended): the per-category merge loop runs under ONE exception
handler, so a failure while merging one category aborts the merges of every
category later in the dictionary iteration order, while categories merged
before the failure keep their merges (no rollback): the result equals the
failure-free merge of the longest failure-free leading segment of the
grouped categories, and each category's store is either left untouched or
fully merged (existing rows, unaltered, with that category's new rows
appended). -/
theorem C4_merge_abort_semantics :
    (∀ (failsOn : String → Bool) (store : Store) (imgs : List CollectedImage),
      storeWF store = true →
      update_metadata_csv failsOn store imgs
        = mergeLoop noFail store
            ((groupByTarget imgs).takeWhile (fun g => !(failsOn g.1)))
      ∧ (∀ c, rowsOf (update_metadata_csv failsOn store imgs) c = rowsOf store c
          ∨ rowsOf (update_metadata_csv failsOn store imgs) c
            = rowsOf store c
              ++ (imgs.filter (fun i => i.target_subr = c)).map CollectedImage.toRow))
    ∧ (∀ (failsOn : String → Bool) (fs : LocalMeta) (imgs : List CollectedImage),
      update_metadata_csv_local failsOn fs imgs
        = mergeLoopLocal noFail fs
            ((groupByTarget imgs).takeWhile (fun g => !(failsOn g.1)))
      ∧ (∀ c, localRowsOf (update_metadata_csv_local failsOn fs imgs) c
            = localRowsOf fs c
          ∨ localRowsOf (update_metadata_csv_local failsOn fs imgs) c
            = localRowsOf fs c
              ++ (imgs.filter (fun i => i.target_subr = c)).map CollectedImage.toRow)) := by
  constructor
  · intro failsOn store imgs hwf
    have hEq : update_metadata_csv failsOn store imgs
        = mergeLoop noFail store
            ((groupByTarget imgs).takeWhile (fun g => !(failsOn g.1))) := by
      unfold update_metadata_csv
      by_cases he : imgs.isEmpty
      · have : imgs = [] := by cases imgs <;> simp_all
        subst this
        simp [groupByTarget, mergeLoop]
      · rw [if_neg he]
        exact mergeLoop_eq_takeWhile failsOn (groupByTarget imgs) store hwf
    refine ⟨hEq, ?_⟩
    intro c
    have hsub : ((groupByTarget imgs).takeWhile (fun g => !(failsOn g.1))).Sublist
        (groupByTarget imgs) := List.takeWhile_sublist _
    have hnd : (((groupByTarget imgs).takeWhile (fun g => !(failsOn g.1))).map
        Prod.fst).Nodup :=
      List.Nodup.sublist (List.Sublist.map Prod.fst hsub) (nodup_keys_groupByTarget imgs)
    rw [hEq, mergeLoop_rows_noFail _ store hwf hnd c]
    rcases grpImgs_takeWhile (fun g => !(failsOn g.1)) (groupByTarget imgs) c with h | h
    · right
      unfold groupRows
      rw [h, grpImgs_groupByTarget]
    · left
      unfold groupRows
      rw [h]
      simp
  · intro failsOn fs imgs
    have hEq : update_metadata_csv_local failsOn fs imgs
        = mergeLoopLocal noFail fs
            ((groupByTarget imgs).takeWhile (fun g => !(failsOn g.1))) := by
      unfold update_metadata_csv_local
      by_cases he : imgs.isEmpty
      · have : imgs = [] := by cases imgs <;> simp_all
        subst this
        simp [groupByTarget, mergeLoopLocal]
      · rw [if_neg he]
        exact mergeLoopLocal_eq_takeWhile failsOn (groupByTarget imgs) fs
    refine ⟨hEq, ?_⟩
    intro c
    have hsub : ((groupByTarget imgs).takeWhile (fun g => !(failsOn g.1))).Sublist
        (groupByTarget imgs) := List.takeWhile_sublist _
    have hnd : (((groupByTarget imgs).takeWhile (fun g => !(failsOn g.1))).map
        Prod.fst).Nodup :=
      List.Nodup.sublist (List.Sublist.map Prod.fst hsub) (nodup_keys_groupByTarget imgs)
    rw [hEq, mergeLoopLocal_rows_noFail _ fs hnd c]
    rcases grpImgs_takeWhile (fun g => !(failsOn g.1)) (groupByTarget imgs) c with h | h
    · right
      unfold groupRows
      rw [h, grpImgs_groupByTarget]
    · left
      unfold groupRows
      rw [h]
      simp

/-- C4 witness: the two-category merge with a failing dalle2 write. -/
theorem C4_merge_abort_semantics_witness :
    update_metadata_csv failsDalle [] [imgA, imgB]
      = mergeLoop noFail []
          ((groupByTarget [imgA, imgB]).takeWhile (fun g => !(failsDalle g.1))) :=
  (C4_merge_abort_semantics.1 failsDalle [] [imgA, imgB] (by decide)).1

/-- C5 counterexample: a novel item whose retrieval completes with a 404 —
the claim requires fetch-errors to increment and nothing to be written,
but `requests.get` does not raise on a non-2xx status, so the code counts
the item as new, records a metadata row, and uploads the error page. -/
theorem C5_non2xx_treated_as_success :
    (processSubmission DALLE_SUBR (FLAIR_DICT DALLE_SUBR) [] fetch404
        (initRunState DALLE_SUBR) novel5).stats.download_errors = 0
    ∧ (processSubmission DALLE_SUBR (FLAIR_DICT DALLE_SUBR) [] fetch404
        (initRunState DALLE_SUBR) novel5).stats.new_images = 1
    ∧ (processSubmission DALLE_SUBR (FLAIR_DICT DALLE_SUBR) [] fetch404
        (initRunState DALLE_SUBR) novel5).new_images ≠ []
    ∧ (processSubmission DALLE_SUBR (FLAIR_DICT DALLE_SUBR) [] fetch404
        (initRunState DALLE_SUBR) novel5).uploads
      = [{ path := "dalle2/img_dalle2_n1.jpg", contentType := "image/jpeg",
           body := "<html>not found</html>" }] := by
  refine ⟨by decide, by decide, by decide, by decide⟩

/-- C5 (amended): an exception during retrieval or storage (network error,
timeout, write failure) is per-item fatal — fetch-errors increments by 1,
no metadata row is appended, no binary is written, and the loop continues
with the next candidate; a non-2xx HTTP response, however, does not raise
and is treated as a successful fetch: its body is uploaded and the item is
recorded as new. -/
theorem C5_fetch_error_handling :
    (∀ (subr : String) (flair ids : List String) (fetch : String → FetchResult)
        (st : RunState) (s : Submission),
      flairOk flair s.link_flair_text = true →
      isImageUrl s.url = true →
      s.over_18 = false →
      ids.contains s.id = false →
      fetch s.url = FetchResult.exn →
        (processSubmission subr flair ids fetch st s).stats.download_errors
            = st.stats.download_errors + 1
        ∧ (processSubmission subr flair ids fetch st s).stats.new_images
            = st.stats.new_images
        ∧ (processSubmission subr flair ids fetch st s).new_images = st.new_images
        ∧ (processSubmission subr flair ids fetch st s).uploads = st.uploads)
    ∧ (∀ (subr : String) (flair ids : List String) (fetch : String → FetchResult)
        (st : RunState) (s : Submission) (rest : List Submission),
        List.foldl (processSubmission subr flair ids fetch) st (s :: rest)
          = List.foldl (processSubmission subr flair ids fetch)
              (processSubmission subr flair ids fetch st s) rest)
    ∧ (∀ (subr : String) (flair ids : List String) (fetch : String → FetchResult)
        (st : RunState) (s : Submission) (code : Nat) (body target : String),
      flairOk flair s.link_flair_text = true →
      isImageUrl s.url = true →
      s.over_18 = false →
      ids.contains s.id = false →
      fetch s.url = FetchResult.resp code body →
      resolveCategory subr (s.link_flair_text.getD "") = some target →
        (processSubmission subr flair ids fetch st s).stats.new_images
            = st.stats.new_images + 1
        ∧ (processSubmission subr flair ids fetch st s).stats.download_errors
            = st.stats.download_errors
        ∧ (processSubmission subr flair ids fetch st s).uploads
            = st.uploads ++
              [{ path := target ++ "/" ++
                   ("img_" ++ target ++ "_" ++ s.id ++ get_file_extension s.url)
                 contentType :=
                   (CONTENT_TYPE_MAP (get_file_extension s.url)).getD "image/jpeg"
                 body := body }]) := by
  refine ⟨?_, ?_, ?_⟩
  · intro subr flair ids fetch st s hf hi hn hd hx
    rw [exn_step subr flair ids fetch st s hf hi hn hd hx]
    exact ⟨rfl, rfl, rfl, rfl⟩
  · intro subr flair ids fetch st s rest
    rfl
  · intro subr flair ids fetch st s code body target hf hi hn hd hx ht
    rw [resp_step subr flair ids fetch st s code body target hf hi hn hd hx ht]
    exact ⟨rfl, rfl, rfl⟩

/-- C5 witness: a raising retrieval at a concrete novel item. -/
theorem C5_fetch_error_handling_witness :
    (processSubmission DALLE_SUBR (FLAIR_DICT DALLE_SUBR) [] fetchExn
        (initRunState DALLE_SUBR) novel5).stats.download_errors
      = (initRunState DALLE_SUBR).stats.download_errors + 1
    ∧ (processSubmission DALLE_SUBR (FLAIR_DICT DALLE_SUBR) [] fetchExn
        (initRunState DALLE_SUBR) novel5).stats.new_images
      = (initRunState DALLE_SUBR).stats.new_images
    ∧ (processSubmission DALLE_SUBR (FLAIR_DICT DALLE_SUBR) [] fetchExn
        (initRunState DALLE_SUBR) novel5).new_images
      = (initRunState DALLE_SUBR).new_images
    ∧ (processSubmission DALLE_SUBR (FLAIR_DICT DALLE_SUBR) [] fetchExn
        (initRunState DALLE_SUBR) novel5).uploads
      = (initRunState DALLE_SUBR).uploads :=
  C5_fetch_error_handling.1 DALLE_SUBR (FLAIR_DICT DALLE_SUBR) [] fetchExn
    (initRunState DALLE_SUBR) novel5 (by decide) (by decide) (by decide)
    (by decide) rfl

/-- C6: both metadata mergers are append-only — for every category, the
rows after a (failure-free) merge are exactly the prior rows, unmodified
and in order, followed by that category's new rows; a category with no new
rows is not written at all (its blob/file is untouched), and an empty input
list leaves the whole store untouched. -/
theorem C6_metadata_merge_append_only :
    (∀ (store : Store) (imgs : List CollectedImage), storeWF store = true →
      (∀ c, rowsOf (update_metadata_csv noFail store imgs) c
          = rowsOf store c
            ++ (imgs.filter (fun i => i.target_subr = c)).map CollectedImage.toRow)
      ∧ (∀ c, imgs.filter (fun i => i.target_subr = c) = [] →
          storeLookup (update_metadata_csv noFail store imgs) c = storeLookup store c)
      ∧ update_metadata_csv noFail store [] = store)
    ∧ (∀ (fs : LocalMeta) (imgs : List CollectedImage),
      (∀ c, localRowsOf (update_metadata_csv_local noFail fs imgs) c
          = localRowsOf fs c
            ++ (imgs.filter (fun i => i.target_subr = c)).map CollectedImage.toRow)
      ∧ (∀ c, imgs.filter (fun i => i.target_subr = c) = [] →
          localLookup (update_metadata_csv_local noFail fs imgs) c = localLookup fs c)
      ∧ update_metadata_csv_local noFail fs [] = fs) := by
  constructor
  · intro store imgs hwf
    exact ⟨fun c => update_rows_noFail store imgs hwf c,
      fun c h => update_lookup_of_filter_nil noFail store imgs c h,
      update_empty noFail store⟩
  · intro fs imgs
    exact ⟨fun c => update_local_rows_noFail fs imgs c,
      fun c h => update_local_lookup_of_filter_nil noFail fs imgs c h,
      update_local_empty noFail fs⟩

/-- C6 witness: appending one collected image to a store that already has a
dalle2 row. -/
theorem C6_metadata_merge_append_only_witness :
    rowsOf (update_metadata_csv noFail store7 [img5]) DALLE_SUBR
      = rowsOf store7 DALLE_SUBR
        ++ ([img5].filter (fun i => i.target_subr = DALLE_SUBR)).map
            CollectedImage.toRow :=
  (C6_metadata_merge_append_only.1 store7 [img5] (by decide)).1 DALLE_SUBR

/-- C7: on the five-item scenario feed (two irrelevant flairs, one NSFW,
one already indexed, one novel and fetchable) the funnel counters are
checked=5, passed-tag=3, passed-content-type=3, passed-safety=2,
new-images=1, fetch-errors=0, and exactly one row is appended to the
category's metadata store; in general `checked` increments unconditionally
for every item and each stage counter increments exactly when its stage
(and every prior stage) passes. -/
theorem C7_funnel_scenario :
    (upload_new_images_to_gcs store7 fetch200 DALLE_SUBR feed7).stats
      = { subreddit := "dalle2", checked := 5, passed_flair := 3,
          passed_image := 3, passed_nsfw := 2, new_images := 1,
          download_errors := 0 }
    ∧ rowsOf (update_metadata_csv noFail store7
        (upload_new_images_to_gcs store7 fetch200 DALLE_SUBR feed7).new_images)
          DALLE_SUBR
      = rowsOf store7 DALLE_SUBR ++ [img5.toRow]
    ∧ (∀ (subr : String) (flair ids : List String) (fetch : String → FetchResult)
        (st : RunState) (s : Submission),
        (processSubmission subr flair ids fetch st s).stats.checked
          = st.stats.checked + 1)
    ∧ (∀ (subr : String) (flair ids : List String) (fetch : String → FetchResult)
        (st : RunState) (s : Submission),
        (processSubmission subr flair ids fetch st s).stats.passed_flair
          = st.stats.passed_flair
            + (if flairOk flair s.link_flair_text then 1 else 0))
    ∧ (∀ (subr : String) (flair ids : List String) (fetch : String → FetchResult)
        (st : RunState) (s : Submission),
        (processSubmission subr flair ids fetch st s).stats.passed_image
          = st.stats.passed_image
            + (if flairOk flair s.link_flair_text && isImageUrl s.url then 1 else 0))
    ∧ (∀ (subr : String) (flair ids : List String) (fetch : String → FetchResult)
        (st : RunState) (s : Submission),
        (processSubmission subr flair ids fetch st s).stats.passed_nsfw
          = st.stats.passed_nsfw
            + (if flairOk flair s.link_flair_text && isImageUrl s.url && !s.over_18
               then 1 else 0)) := by
  refine ⟨by decide, by decide, checked_delta, passed_flair_delta,
    passed_image_delta, passed_nsfw_delta⟩

/-- C8: every record the collector produces has filename exactly
`img_{category}_{identifier}{extension}` with the extension derived by
`get_file_extension` from its URL; the derivation lower-cases the extension
of the URL's path component (`img.PNG` yields `.png` and filename
`img_dalle2_id9.png`) and defaults to `.jpg` when the path has none. -/
theorem C8_filename_derivation :
    (∀ (store : Store) (fetch : String → FetchResult) (subr : String)
        (feed : List Submission),
      ∀ img ∈ (upload_new_images_to_gcs store fetch subr feed).new_images,
        img.filename = "img_" ++ img.target_subr ++ "_" ++ img.submission_id
          ++ get_file_extension img.url)
    ∧ get_file_extension "https://x.test/path/img.PNG" = ".png"
    ∧ "img_" ++ "dalle2" ++ "_" ++ "id9"
        ++ get_file_extension "https://x.test/path/img.PNG" = "img_dalle2_id9.png"
    ∧ get_file_extension "https://x.test/path/img" = ".jpg" := by
  refine ⟨?_, by decide, by decide, by decide⟩
  intro store fetch subr feed img hmem
  exact filenameOk_foldl subr (FLAIR_DICT subr) (get_gcs_submission_ids store subr)
    fetch feed (initRunState subr) (by intro i hi; simp [initRunState] at hi)
    img hmem

/-- C8 witness: the record collected for the novel item of the scenario
feed. -/
theorem C8_filename_derivation_witness :
    img5.filename = "img_" ++ img5.target_subr ++ "_" ++ img5.submission_id
      ++ get_file_extension img5.url :=
  C8_filename_derivation.1 store7 fetch200 DALLE_SUBR feed7 img5 (by decide)

/-- C9: category resolution is the identity for every source other than the
redirecting r/aiArt, and for r/aiArt it is the `AIART_MAP` lookup on the
item's flair: the DALL-E flair resolves to dalle2 and the Midjourney flair
to midjourney. -/
theorem C9_category_resolution :
    (∀ (subr tag : String), ¬ (subr = AIART_SUBR) →
      resolveCategory subr tag = some subr)
    ∧ resolveCategory AIART_SUBR "Image - DALL E 3 :a2:" = some DALLE_SUBR
    ∧ resolveCategory AIART_SUBR "Image - Midjourney :a2:" = some MIDJ_SUBR := by
  refine ⟨?_, rfl, rfl⟩
  intro subr tag h
  simp [resolveCategory, h]

/-- C9 witness: identity resolution for the non-redirecting dalle2 source. -/
theorem C9_category_resolution_witness :
    resolveCategory DALLE_SUBR "DALL·E 2" = some DALLE_SUBR :=
  C9_category_resolution.1 DALLE_SUBR "DALL·E 2" (by decide)

/-- C10: for every feed the final counters satisfy the funnel chain
checked ≥ passed-tag ≥ passed-content-type ≥ passed-safety ≥
new-images + download-errors and are non-negative; per item, the sum
new-images + download-errors grows by at most one, and an item skipped by
the dedup stage contributes to neither. -/
theorem C10_funnel_chain_invariant :
    (∀ (store : Store) (fetch : String → FetchResult) (subr : String)
        (feed : List Submission),
      0 ≤ (upload_new_images_to_gcs store fetch subr feed).stats.checked
      ∧ (upload_new_images_to_gcs store fetch subr feed).stats.passed_flair
          ≤ (upload_new_images_to_gcs store fetch subr feed).stats.checked
      ∧ (upload_new_images_to_gcs store fetch subr feed).stats.passed_image
          ≤ (upload_new_images_to_gcs store fetch subr feed).stats.passed_flair
      ∧ (upload_new_images_to_gcs store fetch subr feed).stats.passed_nsfw
          ≤ (upload_new_images_to_gcs store fetch subr feed).stats.passed_image
      ∧ (upload_new_images_to_gcs store fetch subr feed).stats.new_images
          + (upload_new_images_to_gcs store fetch subr feed).stats.download_errors
          ≤ (upload_new_images_to_gcs store fetch subr feed).stats.passed_nsfw)
    ∧ (∀ (subr : String) (flair ids : List String) (fetch : String → FetchResult)
        (st : RunState) (s : Submission),
        (processSubmission subr flair ids fetch st s).stats.new_images
          + (processSubmission subr flair ids fetch st s).stats.download_errors
          ≤ st.stats.new_images + st.stats.download_errors + 1)
    ∧ (∀ (subr : String) (flair ids : List String) (fetch : String → FetchResult)
        (st : RunState) (s : Submission), ids.contains s.id = true →
        (processSubmission subr flair ids fetch st s).stats.new_images
            = st.stats.new_images
        ∧ (processSubmission subr flair ids fetch st s).stats.download_errors
            = st.stats.download_errors) := by
  refine ⟨?_, newerr_delta_le, ?_⟩
  · intro store fetch subr feed
    have h := statsInv_run store fetch subr feed
    exact ⟨Nat.zero_le _, h.1, h.2.1, h.2.2.1, h.2.2.2⟩
  · intro subr flair ids fetch st s h
    exact ⟨(dup_skip_newerr subr flair ids fetch st s h).1,
      (dup_skip_newerr subr flair ids fetch st s h).2.1⟩

/-- C10 witness: a dedup-skipped item changes neither counter. -/
theorem C10_funnel_chain_invariant_witness :
    (processSubmission DALLE_SUBR (FLAIR_DICT DALLE_SUBR) ["n1"] fetch200
        (initRunState DALLE_SUBR) novel5).stats.new_images
      = (initRunState DALLE_SUBR).stats.new_images
    ∧ (processSubmission DALLE_SUBR (FLAIR_DICT DALLE_SUBR) ["n1"] fetch200
        (initRunState DALLE_SUBR) novel5).stats.download_errors
      = (initRunState DALLE_SUBR).stats.download_errors :=
  C10_funnel_chain_invariant.2.2 DALLE_SUBR (FLAIR_DICT DALLE_SUBR) ["n1"]
    fetch200 (initRunState DALLE_SUBR) novel5 (by decide)

end RedditScraper
